import Mathlib

/-!
Verification of the display_connector repository: a shallow embedding of the
navigation state machine (src/display.py), the TJC binary protocol codec
(src/src/tjc.py), the display communicator write/block queue
(src/src/communicator.py), the Moonraker JSON-RPC request bookkeeping
(src/display.py), the thumbnail palette reduction (src/src/lib_col_pic.py)
and the telemetry formatters (src/src/mapping.py), together with theorems
settling the frozen claims about them.

Bytes are modelled as natural numbers, byte strings as lists of naturals,
Python dicts keyed by request id as association lists, and the async control
flow as explicit state passing with event traces.
-/

namespace Mapping

/-- Round a rational to the nearest integer, ties to even, modelling the
rounding used by Python float formatting (`f"{v:3.1f}"` and `f"{v:2.0f}"`). -/
def roundHalfEven (q : ℚ) : ℤ :=
  let f : ℤ := ⌊q⌋
  let frac : ℚ := q - f
  if frac < 1/2 then f
  else if frac > 1/2 then f + 1
  else if f % 2 = 0 then f else f + 1

/-- Left-pad a string with spaces to a minimum width, modelling the width
field of a Python format spec. -/
def padLeft (width : ℕ) (s : String) : String :=
  if s.length < width then String.mk (List.replicate (width - s.length) ' ') ++ s else s

/-- Render a rational with exactly one decimal digit, minimum width 3,
modelling Python `f"{value:3.1f}"`. -/
def fmtFixed1 (v : ℚ) : String :=
  let t : ℤ := roundHalfEven (v * 10)
  let s := (if t < 0 then "-" else "") ++ toString (t.natAbs / 10) ++ "." ++ toString (t.natAbs % 10)
  padLeft 3 s

/-- Render a rational rounded to an integer, minimum width 2, modelling
Python `f"{value:2.0f}"`. -/
def fmtFixed0Width2 (v : ℚ) : String :=
  padLeft 2 (toString (roundHalfEven v))

/-- Zero-pad an integer to two digits, modelling strftime `%M`, `%S`, `%H`. -/
def pad2 (n : ℤ) : String :=
  if n < 10 then "0" ++ toString n else toString n

/-- Translation of src/src/mapping.py `format_temp`: `None` renders as
"N/A", otherwise the value is formatted as `%3.1f` followed by a degree sign
and `C`. -/
def format_temp (value : Option ℚ) : String :=
  match value with
  | none => "N/A"
  | some v => fmtFixed1 v ++ "°C"

/-- Translation of src/src/mapping.py `format_time`: `None` renders as
"N/A"; durations under an hour render as `MMm SSs` and longer durations as
`HHh MMm`, via the fields of `time.gmtime(seconds)`. -/
def format_time (seconds : Option ℚ) : String :=
  match seconds with
  | none => "N/A"
  | some q =>
    let s : ℤ := ⌊q⌋
    if q < 3600 then
      pad2 ((s / 60) % 60) ++ "m " ++ pad2 (s % 60) ++ "s"
    else
      pad2 ((s / 3600) % 24) ++ "h " ++ pad2 ((s / 60) % 60) ++ "m"

/-- Translation of src/src/mapping.py `format_percent`: `None` renders as
"N/A", otherwise `value * 100` is formatted as `%2.0f` followed by a percent
sign. -/
def format_percent (value : Option ℚ) : String :=
  match value with
  | none => "N/A"
  | some v => fmtFixed0Width2 (v * 100) ++ "%"

end Mapping

/-- C10: the telemetry formatters format_temp, format_time and format_percent
are total on the None input: each returns the string "N/A" when the telemetry
value is None, so a missing value renders as "N/A" on the widget rather than
aborting the update. -/
theorem c10_formatters_none_total :
    Mapping.format_temp none = "N/A" ∧
    Mapping.format_time none = "N/A" ∧
    Mapping.format_percent none = "N/A" :=
  ⟨rfl, rfl, rfl⟩

namespace TJC

/-- Terminator byte sequence of the TJC protocol (src/src/tjc.py `EOL`). -/
def EOL : List ℕ := [0xFF, 0xFF, 0xFF]

/-- Known non-informative filler bytes (src/src/tjc.py `JUNK_DATA`). -/
def JUNK_DATA : List ℕ := [0x5A, 0xA5, 0x06, 0x83, 0x10, 0x3E, 0x01, 0x00]

/-- Byte values of the `EventType` enumeration in src/src/tjc.py.
RECONNECTED (0x666) is a synthetic event id that can never match a byte. -/
def eventTypeValues : List ℕ :=
  [0x65, 0x67, 0x68, 0x69, 0x72, 0x86, 0x87, 0x88, 0x89, 0x666]

/-- Expected total packet length per leading type byte: the
`TJCProtocol.PACKET_LENGTH_MAP` table. Types absent from the table are
treated as variable-length. Note 0x72 has no entry; only 0x71 does. -/
def packetLengthMap (t : ℕ) : Option ℕ :=
  if t = 0x00 then some 6
  else if t = 0x24 then some 4
  else if t = 0x65 then some 6
  else if t = 0x66 then some 5
  else if t = 0x67 then some 9
  else if t = 0x68 then some 9
  else if t = 0x69 then some 8
  else if t = 0x71 then some 8
  else if t = 0x86 then some 4
  else if t = 0x87 then some 4
  else if t = 0x88 then some 4
  else if t = 0x89 then some 4
  else if t = 0xFD then some 4
  else if t = 0xFE then some 4
  else none

/-- Whether a byte list ends with the three-byte terminator, modelling
`bytes.endswith(EOL)`. -/
def endsWithEOL (l : List ℕ) : Prop := l.reverse.take 3 = EOL

instance : DecidablePred endsWithEOL :=
  fun l => inferInstanceAs (Decidable (l.reverse.take 3 = EOL))

/-- Leftmost split of a byte list at the terminator, modelling
`bytes.partition(EOL)`: `some (before, after)` when the terminator occurs,
`none` otherwise. -/
def splitOnEOL : List ℕ → Option (List ℕ × List ℕ)
  | 0xFF :: 0xFF :: 0xFF :: rest => some ([], rest)
  | x :: rest =>
    match splitOnEOL rest with
    | some (pre, post) => some (x :: pre, post)
    | none => none
  | [] => none

/-- Truncation of a message to all but its last three bytes, modelling
`full_message[:-3]`. -/
def dropLast3 (l : List ℕ) : List ℕ := l.take (l.length - 3)

/-- Translation of `TJCProtocol._extract_packet` together with
`_extract_fixed_length_packet`, `_handle_incomplete_fixed_packet` and
`_extract_varied_length_packet` (src/src/tjc.py). The result is the
extracted message with its `was_keyboard_input` flag (or `none` when no
complete packet is available) and the remaining buffer. The `dropped_buffer`
bookkeeping of the source is omitted: it is only appended to and never
influences which messages are emitted. A fuel argument bounds the internal
recursion used when a complete-length 0x65 packet is re-read with one extra
byte and extraction restarts on the shortened buffer; every recursive call
consumes at least five buffer bytes, so fuel `buffer length + 1` is always
sufficient. -/
def extractPacket : ℕ → List ℕ → Option (List ℕ × Bool) × List ℕ
  | 0, buf => (none, buf)
  | Nat.succ fuel, buf =>
    if buf.length < 3 then (none, buf)
    else
      match packetLengthMap (buf.headD 0) with
      | some expLen0 =>
        if buf.length < expLen0 ∧
            ¬(buf.length = 5 ∧ (buf.headD 0 = 0x72 ∨ buf.headD 0 = 0x71)) then
          (none, buf)
        else
          let expLen := if buf.length < expLen0 then 5 else expLen0
          let full0 := buf.take expLen
          if full0.headD 0 = 0x71 ∧ ¬ endsWithEOL full0 then
            -- keyboard-input special case: re-append EOL and re-tag to 0x72
            let full := 0x72 :: full0.drop 1 ++ EOL
            let buf1 := buf.drop expLen
            if buf1.take 3 = EOL then (some (dropLast3 full, false), buf1.drop 3)
            else (some (dropLast3 full, true), buf1)
          else
            if endsWithEOL full0 then
              let buf1 := buf.drop expLen
              if buf1.take 3 = EOL then (some (dropLast3 full0, false), buf1.drop 3)
              else (some (dropLast3 full0, false), buf1)
            else
              -- incomplete fixed packet: touch events retried with one extra
              -- byte and silently dropped; anything else waits for more data
              if buf.headD 0 = 0x65 ∧ endsWithEOL (buf.take (expLen + 1)) then
                extractPacket fuel (buf.drop (expLen + 1))
              else (none, buf)
      | none =>
        match splitOnEOL buf with
        | some (msg, rest) => (some (msg, false), rest)
        | none =>
          if buf.take 8 = JUNK_DATA then (none, [])
          else (none, buf)

/-- Whether a decoded message is an asynchronous event
(`TJCProtocol.is_event`). -/
def isEvent (msg : List ℕ) : Bool :=
  decide (0 < msg.length) && eventTypeValues.contains (msg.headD 0)

/-- Extraction loop of `TJCProtocol.data_received`: extract packets until no
complete packet remains, collecting each message with its keyboard flag. The
fuel argument bounds the loop; every successful extraction consumes at least
three buffer bytes, so fuel `buffer length + 1` is always sufficient. -/
def processLoop : ℕ → List ℕ → List (List ℕ × Bool) × List ℕ
  | 0, buf => ([], buf)
  | Nat.succ fuel, buf =>
    match extractPacket (buf.length + 1) buf with
    | (none, buf') => ([], buf')
    | (some m, buf') =>
      let (ms, bf) := processLoop fuel buf'
      (m :: ms, bf)

/-- Decoded protocol output: events are dispatched to the event handler,
replies are put on the reply queue. -/
inductive TJCMsg where
  | event (bytes : List ℕ)
  | reply (bytes : List ℕ)
deriving DecidableEq, Repr

/-- Dispatch of one extracted message in `TJCProtocol.data_received`: a
message is delivered as an event when `is_event` holds or it was the
keyboard-input special case, otherwise queued as a reply. -/
def classify (m : List ℕ × Bool) : TJCMsg :=
  if isEvent m.1 || m.2 then TJCMsg.event m.1 else TJCMsg.reply m.1

/-- Translation of `TJCProtocol.data_received` (src/src/tjc.py): append the
incoming data to the pending buffer, then extract and dispatch packets until
none remains, returning the dispatched messages and the new buffer. -/
def feed (buf data : List ℕ) : List TJCMsg × List ℕ :=
  let (ms, b) := processLoop (buf.length + data.length + 1) (buf ++ data)
  (ms.map classify, b)

/-- Two consecutive `data_received` calls starting from an empty buffer:
the second call continues from the buffer left by the first. -/
def feedSplit (s1 s2 : List ℕ) : List TJCMsg × List ℕ :=
  let (m1, b1) := feed [] s1
  let (m2, b2) := feed b1 s2
  (m1 ++ m2, b2)

/-- Decoded payload of an input event (the namedtuples of src/src/tjc.py). -/
inductive TJCPayload where
  | touch (pageId componentId : ℕ)
  | touchCoordinate (x y touchEvent : ℕ)
  | numeric (pageId componentId value : ℕ)
deriving DecidableEq, Repr

/-- Translation of the input-event branches of
`TJCClient.event_message_handler` (src/src/tjc.py): touch coordinates unpack
as big-endian `>HHB`, touch events as `BB`, and numeric/slider input as
native little-endian `BBH`; a payload of the wrong exact length raises
`struct.error`, which the handler catches and logs, delivering nothing
(modelled as `none`). Message types handled by the `Nextion` base class are
outside this repository and also modelled as `none`. -/
def decodeInputEvent (msg : List ℕ) : Option (ℕ × TJCPayload) :=
  match msg with
  | [0x67, x1, x0, y1, y0, te] =>
    some (0x67, TJCPayload.touchCoordinate (x1 * 256 + x0) (y1 * 256 + y0) te)
  | [0x65, p, c] => some (0x65, TJCPayload.touch p c)
  | [0x72, p, c, lo, hi] => some (0x72, TJCPayload.numeric p c (lo + 256 * hi))
  | [0x69, p, c, lo, hi] => some (0x69, TJCPayload.numeric p c (lo + 256 * hi))
  | _ => none

end TJC

/-- C3 counterexample: a five-byte frame whose first byte is 0x72 is NOT
re-tagged and delivered — 0x72 has no entry in `PACKET_LENGTH_MAP`, so the
buffer takes the variable-length path and waits for more bytes; no message
is emitted and the buffer is left unchanged. This refutes the claim's
"0x71 or 0x72" disjunction at the concrete input 72 01 02 03 04. -/
theorem c3_cex_tag72_not_delivered :
    TJC.feed [] [0x72, 1, 2, 3, 4] = ([], [0x72, 1, 2, 3, 4]) := by
  decide

/-- C3 (amended to the 0x71 tag only): if the receive buffer holds exactly
five bytes whose first byte is 0x71 and which do not end in the terminator,
the frame is not dropped: the codec re-tags it to 0x72, re-appends the
terminator, and delivers it as an event whose decoded payload is a
numeric input carrying the page, component and little-endian value encoded
in the frame. -/
theorem c3_short_71_frame_retagged (p c lo hi : ℕ)
    (h : ¬ (c = 0xFF ∧ lo = 0xFF ∧ hi = 0xFF)) :
    TJC.feed [] [0x71, p, c, lo, hi] =
      ([TJC.TJCMsg.event [0x72, p, c, lo, hi]], []) ∧
    TJC.decodeInputEvent [0x72, p, c, lo, hi] =
      some (0x72, TJC.TJCPayload.numeric p c (lo + 256 * hi)) := by
  have hEol : ¬ TJC.endsWithEOL [0x71, p, c, lo, hi] := by
    simp only [TJC.endsWithEOL, TJC.EOL, List.reverse_cons, List.reverse_nil]
    simp only [List.nil_append, List.cons_append, List.take]
    intro hcontra
    apply h
    simp only [List.cons.injEq] at hcontra
    exact ⟨hcontra.2.2.1, hcontra.2.1, hcontra.1⟩
  constructor
  · simp only [TJC.feed, TJC.processLoop, TJC.extractPacket, TJC.packetLengthMap,
      TJC.dropLast3, TJC.splitOnEOL, TJC.isEvent, TJC.classify, TJC.eventTypeValues,
      TJC.EOL, List.length, List.headD, List.take, List.drop, List.nil_append]
    simp [hEol, TJC.extractPacket, TJC.classify, TJC.isEvent, TJC.eventTypeValues,
      TJC.dropLast3, TJC.EOL]
  · rfl

/-- C3 witness: the amended theorem applied to the repository's own test
vector 71 F1 02 03 05, which is delivered as numeric input with value
0x0503 = 1283. -/
theorem c3_short_71_frame_retagged_witness :
    TJC.feed [] [0x71, 0xF1, 0x02, 0x03, 0x05] =
      ([TJC.TJCMsg.event [0x72, 0xF1, 0x02, 0x03, 0x05]], []) ∧
    TJC.decodeInputEvent [0x72, 0xF1, 0x02, 0x03, 0x05] =
      some (0x72, TJC.TJCPayload.numeric 0xF1 0x02 (0x03 + 256 * 0x05)) :=
  c3_short_71_frame_retagged 0xF1 0x02 0x03 0x05 (by decide)

/-- C4 counterexample: feeding the junk filler sequence and then the
terminator in two calls yields a different message sequence than feeding
the concatenation in one call — the first call discards the junk bytes
because no terminator is in sight, so the split run emits an empty reply
while the single run emits the junk bytes as a reply. This refutes the
universally quantified split-equivalence. -/
theorem c4_cex_split_differs :
    TJC.feedSplit TJC.JUNK_DATA TJC.EOL ≠
      TJC.feed [] (TJC.JUNK_DATA ++ TJC.EOL) := by
  decide

/-- C4 (amended): split-equivalence does not hold for every byte sequence —
the length-sensitive recovery heuristics (junk discard, five-byte 0x71
re-tagging) can make a split run differ from a single-call run — but it
does hold for a single well-formed touch-event frame: feeding any prefix of
the six-byte frame 65 p c FF FF FF and then the remainder produces exactly
the messages of a single call, and the codec carries no state between the
calls other than the pending buffer. -/
theorem c4_split_touch_frame (p c k : ℕ) (hk : k ≤ 6) :
    TJC.feedSplit (List.take k [0x65, p, c, 0xFF, 0xFF, 0xFF])
        (List.drop k [0x65, p, c, 0xFF, 0xFF, 0xFF]) =
      TJC.feed [] [0x65, p, c, 0xFF, 0xFF, 0xFF] := by
  interval_cases k <;> rfl

/-- C4 witness: the amended theorem applied to the frame 65 07 08 FF FF FF
split after its fourth byte. -/
theorem c4_split_touch_frame_witness :
    TJC.feedSplit (List.take 4 [0x65, 7, 8, 0xFF, 0xFF, 0xFF])
        (List.drop 4 [0x65, 7, 8, 0xFF, 0xFF, 0xFF]) =
      TJC.feed [] [0x65, 7, 8, 0xFF, 0xFF, 0xFF] :=
  c4_split_touch_frame 7 8 4 (by decide)

namespace Comm

/-- Blocking state of `DisplayCommunicator` (src/src/communicator.py):
`blocked_by` is the currently held blocking key (`None` when free) and
`blocked_buffer` is the FIFO of commands queued while a block was held,
each with its optional timeout. -/
structure CommState where
  blocked_by : Option String
  blocked_buffer : List (String × Option ℕ)
deriving DecidableEq, Repr

/-- Observable actions of the communicator, in program order: `send` is the
actual transmission of a command to the display (`self.display.command`),
`claim`/`release` are acquisition and release of a blocking key, and
`sleep` is an `asyncio.sleep` delay in milliseconds. -/
inductive Event where
  | send (data : String) (timeout : Option ℕ)
  | claim (key : String)
  | release (key : String)
  | sleep (ms : ℕ)
deriving DecidableEq, Repr

/-- Translation of `DisplayCommunicator.write` when called without a
blocking key (`blocked_key=None`): if some key is held the command is
queued and nothing is sent; otherwise it is sent, and the `finally` clause
does not release anything. -/
def writeNoKey (st : CommState) (data : String) (timeout : Option ℕ) :
    CommState × List Event :=
  match st.blocked_by with
  | some _ => ({ st with blocked_buffer := st.blocked_buffer ++ [(data, timeout)] }, [])
  | none => (st, [Event.send data timeout])

/-- Translation of `DisplayCommunicator.unblock`: when the given key holds
the block, release it, pop the oldest queued command (if any) and send it
via a key-less `write`. When the key does not hold the block, do nothing. -/
def unblock (st : CommState) (key : String) : CommState × List Event :=
  if st.blocked_by = some key then
    match st.blocked_buffer with
    | [] => ({ blocked_by := none, blocked_buffer := [] }, [Event.release key])
    | (d, t) :: rest =>
      let (st2, evs) := writeNoKey { blocked_by := none, blocked_buffer := rest } d t
      (st2, Event.release key :: evs)
  else (st, [])

/-- Translation of `DisplayCommunicator.write` (src/src/communicator.py).
When the caller passes a blocking key: a different held key queues the
command without sending; an equal held key proceeds without re-claiming;
no held key claims the block. The command is then sent, and the `finally`
clause releases the key via `unblock`, which also dispatches the oldest
queued command. Timeout, `CommandFailed` and reconnect handling change
what is logged but not the blocking/queueing behaviour modelled here, and
in every one of those paths the `finally` clause still runs. -/
def write (st : CommState) (data : String) (timeout : Option ℕ)
    (blockedKey : Option String) : CommState × List Event :=
  match blockedKey with
  | none => writeNoKey st data timeout
  | some key =>
    match st.blocked_by with
    | some held =>
      if held = key then
        let (st2, evs2) := unblock st key
        (st2, Event.send data timeout :: evs2)
      else
        ({ st with blocked_buffer := st.blocked_buffer ++ [(data, timeout)] }, [])
    | none =>
      let st1 : CommState := { st with blocked_by := some key }
      let (st2, evs2) := unblock st1 key
      (st2, Event.claim key :: Event.send data timeout :: evs2)

/-- Translation of `DisplayCommunicator.navigate_to`: write the page-change
command under the dedicated navigation blocking key, sleep 0.25 seconds,
then unblock the navigation key. The event trace records the three steps in
program order. -/
def navigate_to (st : CommState) (pageId : String) : CommState × List Event :=
  let (st1, evs1) := write st ("page " ++ pageId) none (some "__nav__")
  let (st2, evs2) := unblock st1 "__nav__"
  (st2, evs1 ++ [Event.sleep 250] ++ evs2)

end Comm

/-- C5: for every `DisplayCommunicator.write(data, timeout, blocked_key)`
call: a held blocking key different from `blocked_key` queues the command
FIFO and sends nothing; a supplied key with none held claims the block,
sends, and on completion releases the key and sends the oldest queued
command, if any. -/
theorem c5_write_blocking_discipline (st : Comm.CommState) (data : String)
    (timeout : Option ℕ) (blockedKey : Option String) (key : String) (held : String)
    (hheld : st.blocked_by = some held) (hdiff : blockedKey ≠ some held)
    (st2 : Comm.CommState) (hfree : st2.blocked_by = none) :
    (Comm.write st data timeout blockedKey =
      ({ st with blocked_buffer := st.blocked_buffer ++ [(data, timeout)] }, [])) ∧
    (Comm.write st2 data timeout (some key) =
      match st2.blocked_buffer with
      | [] => ({ blocked_by := none, blocked_buffer := [] },
               [Comm.Event.claim key, Comm.Event.send data timeout,
                Comm.Event.release key])
      | (d, t) :: rest => ({ blocked_by := none, blocked_buffer := rest },
               [Comm.Event.claim key, Comm.Event.send data timeout,
                Comm.Event.release key, Comm.Event.send d t])) := by
  constructor
  · match hbk : blockedKey with
    | none =>
      simp [Comm.write, Comm.writeNoKey, hheld]
    | some k =>
      have hne : held ≠ k := by
        intro hcontra
        exact hdiff (by rw [hcontra])
      simp [Comm.write, hheld, hne]
  · simp only [Comm.write, hfree, Comm.unblock]
    match hbuf : st2.blocked_buffer with
    | [] => simp [Comm.writeNoKey, hbuf]
    | (d, t) :: rest => simp [Comm.writeNoKey, hbuf]

/-- C5 witness: the theorem applied with key "x" held, a key-less write that
gets queued, and a fresh state with one queued command that is flushed after
the blocking write releases its key. -/
theorem c5_write_blocking_discipline_witness :
    (Comm.write ⟨some "x", []⟩ "cmd" none none =
      (⟨some "x", [("cmd", none)]⟩, [])) ∧
    (Comm.write ⟨none, [("old", some 3)]⟩ "cmd" none (some "k") =
      (⟨none, []⟩,
       [Comm.Event.claim "k", Comm.Event.send "cmd" none,
        Comm.Event.release "k", Comm.Event.send "old" (some 3)])) := by
  have h := c5_write_blocking_discipline ⟨some "x", []⟩ "cmd" none none "k" "x"
    rfl (by simp) ⟨none, [("old", some 3)]⟩ rfl
  exact ⟨h.1, h.2⟩

/-- C6: contrary to the claim, the navigation blocking key is NOT held until
the 0.25-second settle delay has elapsed. The `finally` clause of `write`
releases the key and dispatches the oldest queued command as soon as the
page-change command completes, so with one command queued the trace shows
the release and the queued send strictly before the sleep; the explicit
`unblock` after the sleep finds the key already released and does nothing.
Evaluation of `navigate_to` at the failing input. -/
theorem c6_nav_key_released_before_delay :
    Comm.navigate_to ⟨none, [("other", none)]⟩ "5" =
      (⟨none, []⟩,
       [Comm.Event.claim "__nav__", Comm.Event.send "page 5" none,
        Comm.Event.release "__nav__", Comm.Event.send "other" none,
        Comm.Event.sleep 250]) := by
  decide

namespace Nav

/-- Logical page identifiers (string constants of src/src/mapping.py). -/
def PAGE_MAIN : String := "main"

def PAGE_FILES : String := "files"

def PAGE_PREPARE_MOVE : String := "prepare_move"

def PAGE_PREPARE_TEMP : String := "prepare_temp"

def PAGE_PREPARE_EXTRUDER : String := "prepare_extruder"

def PAGE_PRINTING : String := "printing"

def PAGE_PRINTING_KAMP : String := "printing_kamp"

def PAGE_PRINTING_PAUSE : String := "printing_pause"

def PAGE_PRINTING_STOP : String := "printing_stop"

def PAGE_PRINTING_EMERGENCY_STOP : String := "printing_emergency_stop"

def PAGE_PRINTING_COMPLETE : String := "printing_complete"

def PAGE_PRINTING_FILAMENT : String := "printing_filament"

def PAGE_PRINTING_SPEED : String := "printing_speed"

def PAGE_PRINTING_ADJUST : String := "printing_adjust"

def PAGE_OVERLAY_LOADING : String := "overlay_loading"

/-- Printing-family pages (src/display.py `PRINTING_PAGES`, duplicate entry
kept as in the source). -/
def PRINTING_PAGES : List String :=
  [PAGE_PRINTING, PAGE_PRINTING_FILAMENT, PAGE_PRINTING_PAUSE,
   PAGE_PRINTING_STOP, PAGE_PRINTING_EMERGENCY_STOP, PAGE_PRINTING_FILAMENT,
   PAGE_PRINTING_SPEED, PAGE_PRINTING_ADJUST]

/-- Mutually exclusive sibling tabs (src/display.py `TABBED_PAGES`). -/
def TABBED_PAGES : List String :=
  [PAGE_PREPARE_EXTRUDER, PAGE_PREPARE_MOVE, PAGE_PREPARE_TEMP,
   PAGE_PRINTING_ADJUST, PAGE_PRINTING_FILAMENT, PAGE_PRINTING_SPEED]

/-- Transitional overlay pages (src/display.py `TRANSITION_PAGES`). -/
def TRANSITION_PAGES : List String := [PAGE_OVERLAY_LOADING]

/-- Controller state relevant to navigation (fields of `DisplayController`
in src/display.py): the page-stack `history` with its top at the END of the
list, the current file-browser directory, the bed-leveling completion flag
and the last printer state string. `lastDisplayed` records the page most
recently passed to `self.display.navigate_to`, so that the relation between
the stack top and the physically displayed page can be stated. -/
structure NavState where
  history : List String
  current_dir : String
  bed_leveling_complete : Bool
  current_state : String
  lastDisplayed : Option String
deriving DecidableEq, Repr

/-- Top of the page stack (`self.history[-1] if self.history else None`). -/
def topPage (h : List String) : Option String := h.getLast?

/-- Membership of an optional current page in a page family; `None` is a
member of no family, as in Python where `None not in PAGES` is true. -/
def optMem (x : Option String) (l : List String) : Prop :=
  match x with
  | some p => p ∈ l
  | none => False

instance : Decidable (optMem x l) := by
  unfold optMem
  match x with
  | some p => exact inferInstanceAs (Decidable (p ∈ l))
  | none => exact inferInstanceAs (Decidable False)

/-- Translation of phase 3 of `DisplayController._navigate_to_page`
(src/display.py). Returns the new state together with the list of pages
physically navigated to on the display: a no-op when the top already
equals the target, a replacement of the top for tab-to-tab moves, and
otherwise an optional clear of the history followed by a push of the
target. -/
def phaseThree (st1 : NavState) (page : String) (clearHistory : Bool) :
    NavState × List String :=
  let current1 := topPage st1.history
  if st1.history = [] ∨ current1 ≠ some page then
    let newHist :=
      if page ∈ TABBED_PAGES ∧ st1.history ≠ [] ∧ optMem current1 TABBED_PAGES then
        st1.history.dropLast ++ [page]
      else
        (if clearHistory ∧ page ≠ PAGE_PRINTING_KAMP then [] else st1.history) ++ [page]
    ({ st1 with history := newHist, lastDisplayed := some page }, [page])
  else (st1, [])

/-- Translation of the remainder of `DisplayController._navigate_to_page`:
phase 1 blocks navigation away from the bed-leveling page while leveling is
incomplete; phase 2 first pushes and displays the printing page when the
target is the KAMP overlay and the current top is not a printing-family
page; then `phaseThree` runs. Thumbnail task cancellation and the per-page
on-enter side effects do not touch the history or issue page changes and
are not modelled. -/
def navigatePage (st : NavState) (page : String) (clearHistory : Bool) :
    NavState × List String :=
  let current := topPage st.history
  if current = some PAGE_PRINTING_KAMP ∧ st.bed_leveling_complete = false ∧
      page ≠ PAGE_PRINTING then
    (st, [])
  else
    let needPrintingFirst := page = PAGE_PRINTING_KAMP ∧
      (st.history = [] ∨ ¬ optMem current PRINTING_PAGES)
    let stepTwo :=
      if needPrintingFirst then
        ({ st with
            history := (if clearHistory then [] else st.history) ++ [PAGE_PRINTING],
            lastDisplayed := some PAGE_PRINTING }, [PAGE_PRINTING])
      else (st, ([] : List String))
    let stepThree := phaseThree stepTwo.1 page clearHistory
    (stepThree.1, stepTwo.2 ++ stepThree.2)

/-- Pop transitional pages from the top while more than one entry remains,
acting on the reversed history (head = top of stack). -/
def popTransitionsRev : List String → List String
  | x :: y :: rest =>
    if x ∈ TRANSITION_PAGES then popTransitionsRev (y :: rest) else x :: y :: rest
  | l => l

/-- Parent directory of a file-browser path, modelling
`"/".join(self.current_dir.split("/")[:-1])`. -/
def parentDir (s : String) : String :=
  String.intercalate "/" ((s.splitOn "/").dropLast)

/-- Translation of `DisplayController._go_back` (src/display.py). A history
with at most one entry is left untouched; on the file-browser page with a
non-root directory the directory is ascended without popping; otherwise the
top is popped, exposed transitional pages are popped while more than one
entry remains, and the display navigates to the remaining top. Thumbnail
retry bookkeeping does not touch the history and is not modelled. -/
def goBack (st : NavState) : NavState × List String :=
  if st.history.length ≤ 1 then (st, [])
  else
    let current := topPage st.history
    if current = some PAGE_FILES ∧ st.current_dir ≠ "" then
      ({ st with current_dir := parentDir st.current_dir }, [])
    else
      let h2 := (popTransitionsRev st.history.dropLast.reverse).reverse
      match topPage h2 with
      | none => ({ st with history := h2 }, [])
      | some back =>
        ({ st with history := h2, lastDisplayed := some back }, [back])

/-- Translation of the RECONNECTED branch of
`DisplayController.display_event_handler` (src/display.py): the history is
cleared, a target page is chosen from the current printer state, and
navigation proceeds with `clear_history=True`. -/
def reconnectedHandler (st : NavState) : NavState × List String :=
  let cleared := { st with history := ([] : List String) }
  let target :=
    if (st.current_state = "printing" ∨ st.current_state = "paused") ∧
        st.bed_leveling_complete = false then PAGE_PRINTING
    else if st.current_state = "complete" then PAGE_PRINTING_COMPLETE
    else PAGE_MAIN
  navigatePage cleared target true

/-- Initial controller state: empty history, root directory, bed leveling
not complete, printer state "booting" (src/display.py `__init__`). -/
def initState : NavState :=
  { history := [], current_dir := "", bed_leveling_complete := false,
    current_state := "booting", lastDisplayed := none }

/-- Navigating from an empty history appends the target page and displays
it, regardless of the clear-history flag, provided the target is not the
KAMP overlay. -/
theorem navigatePage_from_empty (st : NavState) (page : String) (c : Bool)
    (hh : st.history = []) (hk : page ≠ PAGE_PRINTING_KAMP) :
    navigatePage st page c =
      ({ st with history := [page], lastDisplayed := some page }, [page]) := by
  simp [navigatePage, phaseThree, topPage, hh, hk, optMem]

/-- Navigating to the page already on top of the stack is a no-op when that
page is not the KAMP overlay. -/
theorem navigatePage_noop (st : NavState) (page : String) (c : Bool)
    (htop : topPage st.history = some page) (hk : page ≠ PAGE_PRINTING_KAMP) :
    navigatePage st page c = (st, []) := by
  have hne : st.history ≠ [] := by
    intro hcontra
    rw [hcontra] at htop
    simp [topPage] at htop
  simp [navigatePage, phaseThree, htop, hk, hne]

/-- Navigating without clearing history to a fresh non-KAMP target, from a
non-KAMP top such that the move is not tab-to-tab, pushes the target. -/
theorem navigatePage_push (st : NavState) (page q : String)
    (htop : topPage st.history = some q) (hq : q ≠ page)
    (hqk : q ≠ PAGE_PRINTING_KAMP) (hk : page ≠ PAGE_PRINTING_KAMP)
    (htab : ¬(page ∈ TABBED_PAGES ∧ q ∈ TABBED_PAGES)) :
    navigatePage st page false =
      ({ st with history := st.history ++ [page], lastDisplayed := some page },
       [page]) := by
  have hne : st.history ≠ [] := by
    intro hcontra
    rw [hcontra] at htop
    simp [topPage] at htop
  have hqp : ¬ (topPage st.history = some page) := by
    rw [htop]
    simp [hq]
  simp [navigatePage, phaseThree, htop, hk, hne, hqp, optMem, hqk]
  rw [if_neg hq, if_neg htab]

/-- Navigation invariant of the claim: the history is non-empty and its top
entry is the page most recently navigated to on the display. -/
def NavInv (st : NavState) : Prop :=
  st.history ≠ [] ∧ topPage st.history = st.lastDisplayed

/-- Popping transitional pages never empties a non-empty (reversed)
history: the loop stops once a single entry remains. -/
theorem popTransitionsRev_ne_nil : ∀ l : List String, l ≠ [] → popTransitionsRev l ≠ []
  | [], hcontra => absurd rfl hcontra
  | [x], _ => by simp [popTransitionsRev]
  | x :: y :: rest, _ => by
    rw [popTransitionsRev]
    split
    · exact popTransitionsRev_ne_nil (y :: rest) (by simp)
    · simp

/-- Phase 3 preserves the navigation invariant, and establishes it from an
empty history. -/
theorem phaseThree_inv (st1 : NavState) (page : String) (c : Bool)
    (h : NavInv st1 ∨ st1.history = []) : NavInv (phaseThree st1 page c).1 := by
  simp only [phaseThree]
  split
  · -- navigation happens: the new history ends in the target page
    split
    · exact ⟨by simp, by simp [topPage]⟩
    · exact ⟨by simp, by simp [topPage]⟩
  · -- no-op branch: the top already equals the target
    rename_i hcond
    rw [not_or] at hcond
    rcases h with h | h
    · exact h
    · exact absurd h hcond.1

/-- The navigation invariant holds after `_navigate_to_page` whenever it
held before, and is established by any navigation from an empty history. -/
theorem navigatePage_inv (st : NavState) (page : String) (c : Bool)
    (h : NavInv st ∨ st.history = []) : NavInv (navigatePage st page c).1 := by
  simp only [navigatePage]
  split
  · -- phase 1 blocked: state unchanged, and the guard forces a non-empty history
    rename_i hg
    rcases h with h | h
    · exact h
    · rw [h] at hg
      simp [topPage] at hg
  · split
    · -- phase 2 pushed the printing page; its top is the page just displayed
      exact phaseThree_inv _ _ _ (Or.inl ⟨by simp, by simp [topPage]⟩)
    · exact phaseThree_inv _ _ _ h

/-- The navigation invariant is preserved by `_go_back`. -/
theorem goBack_inv (st : NavState) (h : NavInv st) : NavInv (goBack st).1 := by
  simp only [goBack]
  split
  · exact h
  · rename_i hlen
    split
    · exact ⟨h.1, h.2⟩
    · have hne : ((popTransitionsRev st.history.dropLast.reverse).reverse : List String) ≠ [] := by
        have hlen2 : 2 ≤ st.history.length := by omega
        have hdrop : st.history.dropLast ≠ [] := by
          have : st.history.dropLast.length = st.history.length - 1 := by
            simp [List.length_dropLast]
          intro hcontra
          rw [hcontra] at this
          simp at this
          omega
        have hrev : st.history.dropLast.reverse ≠ [] := by
          simpa using hdrop
        simpa using popTransitionsRev_ne_nil _ hrev
      split
      · rename_i htop
        exact absurd (by simpa [topPage, List.getLast?_eq_none_iff] using htop) hne
      · rename_i back htop
        exact ⟨hne, by simpa [topPage] using htop⟩

/-- The navigation invariant holds unconditionally after the RECONNECTED
event handler: the history is cleared and navigation re-establishes it. -/
theorem reconnectedHandler_inv (st : NavState) :
    NavInv (reconnectedHandler st).1 := by
  unfold reconnectedHandler
  exact navigatePage_inv _ _ _ (Or.inr rfl)

/-- Going back from a two-entry history whose file-browser directory is at
the root pops the top and navigates to the remaining entry. -/
theorem goBack_two (st : NavState) (A B : String)
    (hh : st.history = [A, B]) (hd : st.current_dir = "") :
    goBack st = ({ st with history := [A], lastDisplayed := some A }, [A]) := by
  simp [goBack, hh, hd, topPage, popTransitionsRev]

end Nav

/-- C1 counterexample: the bed-leveling page printing_kamp is a non-tabbed
page, yet navigating to it twice from an empty history leaves the history
as [printing, printing_kamp], not [printing_kamp] — phase 2 of
`_navigate_to_page` first pushes the printing page under any page that
nests below it. -/
theorem c1_cex_kamp_double_navigate :
    (Nav.navigatePage
        (Nav.navigatePage Nav.initState Nav.PAGE_PRINTING_KAMP false).1
        Nav.PAGE_PRINTING_KAMP false).1.history ≠ [Nav.PAGE_PRINTING_KAMP] := by
  decide

/-- C1 (amended to exclude the bed-leveling overlay): for every two
distinct, non-tabbed pages A and B, neither of which is printing_kamp,
starting from the initial state: navigate(A) then navigate(A) again leaves
the history equal to [A], and navigate(A), navigate(B), goBack() leaves the
history equal to [A]. -/
theorem c1_navigation_algebra (A B : String) (hAB : A ≠ B)
    (hAt : A ∉ Nav.TABBED_PAGES) (hBt : B ∉ Nav.TABBED_PAGES)
    (hAk : A ≠ Nav.PAGE_PRINTING_KAMP) (hBk : B ≠ Nav.PAGE_PRINTING_KAMP) :
    (Nav.navigatePage (Nav.navigatePage Nav.initState A false).1 A false).1.history
        = [A] ∧
    (Nav.goBack
        (Nav.navigatePage (Nav.navigatePage Nav.initState A false).1 B false).1
      ).1.history = [A] := by
  have h1 := Nav.navigatePage_from_empty Nav.initState A false rfl hAk
  have hs1 : (Nav.navigatePage Nav.initState A false).1 =
      { Nav.initState with history := [A], lastDisplayed := some A } := by
    rw [h1]
  constructor
  · rw [hs1, Nav.navigatePage_noop _ A false (by simp [Nav.topPage]) hAk]
  · rw [hs1, Nav.navigatePage_push _ B A (by simp [Nav.topPage]) hAB hAk hBk
      (fun hc => hBt hc.1)]
    rw [Nav.goBack_two _ A B (by simp) (by simp [Nav.initState])]

/-- C1 witness: the amended theorem applied to the distinct non-tabbed
pages main and files. -/
theorem c1_navigation_algebra_witness :
    (Nav.navigatePage (Nav.navigatePage Nav.initState Nav.PAGE_MAIN false).1
        Nav.PAGE_MAIN false).1.history = [Nav.PAGE_MAIN] ∧
    (Nav.goBack
        (Nav.navigatePage (Nav.navigatePage Nav.initState Nav.PAGE_MAIN false).1
          Nav.PAGE_FILES false).1).1.history = [Nav.PAGE_MAIN] :=
  c1_navigation_algebra Nav.PAGE_MAIN Nav.PAGE_FILES (by decide) (by decide)
    (by decide) (by decide) (by decide)

/-- C2: whenever the top of the navigation history is the bed-leveling page
printing_kamp and bed leveling is not flagged complete, navigating to any
target other than the printing page returns with the history (indeed the
whole state) unchanged and no page-change command issued to the display. -/
theorem c2_kamp_guard_blocks (st : Nav.NavState) (page : String) (c : Bool)
    (h1 : Nav.topPage st.history = some Nav.PAGE_PRINTING_KAMP)
    (h2 : st.bed_leveling_complete = false) (h3 : page ≠ Nav.PAGE_PRINTING) :
    Nav.navigatePage st page c = (st, []) := by
  unfold Nav.navigatePage
  rw [if_pos ⟨h1, h2, h3⟩]

/-- C2 witness: the guard applied while on the KAMP page with leveling
incomplete and target main. -/
theorem c2_kamp_guard_blocks_witness :
    Nav.navigatePage
        ⟨[Nav.PAGE_PRINTING, Nav.PAGE_PRINTING_KAMP], "", false, "printing",
         some Nav.PAGE_PRINTING_KAMP⟩ Nav.PAGE_MAIN false =
      (⟨[Nav.PAGE_PRINTING, Nav.PAGE_PRINTING_KAMP], "", false, "printing",
        some Nav.PAGE_PRINTING_KAMP⟩, []) :=
  c2_kamp_guard_blocks _ Nav.PAGE_MAIN false (by decide) rfl (by decide)

/-- C8: once the first navigation has completed — that is, in every state
satisfying the invariant "history non-empty and its top equal to the page
most recently navigated to on the display" — the invariant still holds at
the completion of each mutating operation: `_navigate_to_page`, `_go_back`
and the RECONNECTED event handler. Moreover `_navigate_to_page` establishes
the invariant from an empty history (the first navigation), and the
RECONNECTED handler re-establishes it unconditionally. -/
theorem c8_history_invariant :
    (∀ st page c, Nav.NavInv st → Nav.NavInv (Nav.navigatePage st page c).1) ∧
    (∀ st page c, st.history = [] → Nav.NavInv (Nav.navigatePage st page c).1) ∧
    (∀ st, Nav.NavInv st → Nav.NavInv (Nav.goBack st).1) ∧
    (∀ st, Nav.NavInv (Nav.reconnectedHandler st).1) :=
  ⟨fun st page c h => Nav.navigatePage_inv st page c (Or.inl h),
   fun st page c h => Nav.navigatePage_inv st page c (Or.inr h),
   Nav.goBack_inv,
   Nav.reconnectedHandler_inv⟩

/-- C8 witness: the invariant theorem applied at concrete states — a
navigation from the main page to files, a go-back over a two-entry stack,
a first navigation from the empty initial state, and a reconnect. -/
theorem c8_history_invariant_witness :
    Nav.NavInv (Nav.navigatePage ⟨[Nav.PAGE_MAIN], "", false, "standby",
        some Nav.PAGE_MAIN⟩ Nav.PAGE_FILES false).1 ∧
    Nav.NavInv (Nav.navigatePage Nav.initState Nav.PAGE_MAIN false).1 ∧
    Nav.NavInv (Nav.goBack ⟨[Nav.PAGE_MAIN, Nav.PAGE_FILES], "", false, "standby",
        some Nav.PAGE_FILES⟩).1 ∧
    Nav.NavInv (Nav.reconnectedHandler ⟨["a", "b"], "", false, "printing",
        some "b"⟩).1 :=
  ⟨c8_history_invariant.1 _ Nav.PAGE_FILES false (by constructor <;> decide),
   c8_history_invariant.2.1 _ Nav.PAGE_MAIN false rfl,
   c8_history_invariant.2.2.1 _ (by constructor <;> decide),
   c8_history_invariant.2.2.2 _⟩

namespace RPC

/-- Incoming JSON-RPC frame from the Moonraker socket: an optional
correlation id, and either a result or an error object (opaque strings). -/
structure RpcItem where
  id? : Option ℕ
  result : Option String
  error : Option String
deriving DecidableEq, Repr

/-- Outcome of a `_send_moonraker_request` call: either the awaited future
was resolved with a reply item, or `asyncio.wait_for` raised
`TimeoutError`. The two constructors are distinct, so a timeout is a
different outcome from any reply, error-carrying or not. -/
inductive Outcome where
  | timedOut
  | resolved (item : RpcItem)
deriving DecidableEq, Repr

/-- Request timeout in seconds (`self.REQUEST_TIMEOUT = 1200` in
src/display.py). -/
def REQUEST_TIMEOUT : ℕ := 1200

/-- Translation of the id-bearing branch of `DisplayController._process_stream`
(src/display.py): an incoming frame with an id pops the matching entry from
the pending-request table and resolves that entry's future with the whole
item (error object or not); an absent id or an unknown id resolves
nothing. The pending table is an association list from request id to the
stored timestamp. -/
def processStreamItem (tbl : List (ℕ × ℕ)) (item : RpcItem) :
    List (ℕ × ℕ) × Option RpcItem :=
  match item.id? with
  | some i =>
    if tbl.any (fun e => e.1 == i) then
      (tbl.filter (fun e => !(e.1 == i)), some item)
    else (tbl, none)
  | none => (tbl, none)

/-- Translation of `DisplayController._send_moonraker_request`
(src/display.py): the request is recorded in the pending table with its
timestamp, then the caller awaits the future with `REQUEST_TIMEOUT`. The
`arrival` argument models what the socket delivers for this request:
`some (elapsed, item)` when a frame correlated by `_process_stream` arrives
after `elapsed` seconds, `none` when nothing ever arrives. A frame arriving
within the timeout resolves the call with the item and has already removed
the pending entry; an uncorrelated frame or no frame within the timeout
makes `asyncio.wait_for` raise, and the except branch pops the entry before
re-raising; a frame arriving after the timeout finds the entry already
popped. -/
def sendMoonrakerRequest (tbl0 : List (ℕ × ℕ)) (id ts : ℕ)
    (arrival : Option (ℕ × RpcItem)) : List (ℕ × ℕ) × Outcome :=
  let tbl1 := tbl0 ++ [(id, ts)]
  match arrival with
  | some (elapsed, item) =>
    if elapsed < REQUEST_TIMEOUT then
      let (tbl2, res) := processStreamItem tbl1 item
      match res with
      | some it => (tbl2, Outcome.resolved it)
      | none => (tbl2.filter (fun e => !(e.1 == id)), Outcome.timedOut)
    else
      ((processStreamItem (tbl1.filter (fun e => !(e.1 == id))) item).1,
       Outcome.timedOut)
  | none => (tbl1.filter (fun e => !(e.1 == id)), Outcome.timedOut)

end RPC

/-- C7: for every RPC call through `_send_moonraker_request` with a fresh
(process-unique) id: if no correlated reply arrives within the 1200-second
timeout the call fails with a timeout, an outcome distinct from a peer
reply — in particular one carrying an error object — which resolves the
call with that reply; and in both outcomes the request's entry has been
removed from the pending-request table by the time the call completes. -/
theorem c7_rpc_timeout_vs_error (tbl0 : List (ℕ × ℕ)) (id ts : ℕ)
    (arrival : Option (ℕ × RPC.RpcItem))
    (hfresh : ∀ e ∈ tbl0, e.1 ≠ id)
    (hcorr : ∀ p, arrival = some p → p.2.id? = some id)
    (hfast : ∀ p, arrival = some p → p.1 < RPC.REQUEST_TIMEOUT) :
    (∀ e ∈ (RPC.sendMoonrakerRequest tbl0 id ts arrival).1, e.1 ≠ id) ∧
    (arrival = none →
      (RPC.sendMoonrakerRequest tbl0 id ts arrival).2 = RPC.Outcome.timedOut) ∧
    (∀ p, arrival = some p →
      (RPC.sendMoonrakerRequest tbl0 id ts arrival).2 = RPC.Outcome.resolved p.2) ∧
    (∀ item : RPC.RpcItem, RPC.Outcome.resolved item ≠ RPC.Outcome.timedOut) := by
  match harr : arrival with
  | none =>
    refine ⟨?_, fun _ => rfl, by simp, by simp⟩
    intro e he
    simp only [RPC.sendMoonrakerRequest, List.mem_filter] at he
    simpa using he.2
  | some (elapsed, item) =>
    have hid : item.id? = some id := hcorr (elapsed, item) rfl
    have helapsed : elapsed < RPC.REQUEST_TIMEOUT := hfast (elapsed, item) rfl
    have hmem : (tbl0 ++ [(id, ts)]).any (fun e => e.1 == id) = true := by
      simp
    refine ⟨?_, by simp, ?_, by simp⟩
    · intro e he
      simp only [RPC.sendMoonrakerRequest, if_pos helapsed,
        RPC.processStreamItem, hid, hmem, if_pos, List.mem_filter] at he
      simpa using he.2
    · intro p hp
      injection hp with hp2
      subst hp2
      simp [RPC.sendMoonrakerRequest, if_pos helapsed, RPC.processStreamItem,
        hid, hmem]

/-- C7 witness: the theorem applied with an empty pending table, request id
7, and a correlated error reply arriving after one second; the call
resolves with the error-carrying item and the table holds no entry for 7. -/
theorem c7_rpc_timeout_vs_error_witness :
    (∀ e ∈ (RPC.sendMoonrakerRequest [] 7 100
        (some (1, ⟨some 7, none, some "err"⟩))).1, e.1 ≠ 7) ∧
    ((some (1, (⟨some 7, none, some "err"⟩ : RPC.RpcItem)) :
        Option (ℕ × RPC.RpcItem)) = none →
      (RPC.sendMoonrakerRequest [] 7 100
        (some (1, ⟨some 7, none, some "err"⟩))).2 = RPC.Outcome.timedOut) ∧
    (∀ p, (some (1, (⟨some 7, none, some "err"⟩ : RPC.RpcItem)) :
        Option (ℕ × RPC.RpcItem)) = some p →
      (RPC.sendMoonrakerRequest [] 7 100
        (some (1, ⟨some 7, none, some "err"⟩))).2 = RPC.Outcome.resolved p.2) ∧
    (∀ item : RPC.RpcItem, RPC.Outcome.resolved item ≠ RPC.Outcome.timedOut) :=
  c7_rpc_timeout_vs_error [] 7 100 (some (1, ⟨some 7, none, some "err"⟩))
    (by simp) (by intro p hp; injection hp with h2; rw [← h2])
    (by intro p hp; injection hp with h2; rw [← h2]; decide)

namespace ColPic

/-- Five-bit red channel of an RGB565 color (`(c >> 11) & 0x1F`,
field `A0` in src/src/lib_col_pic.py). -/
def chanA0 (c : ℕ) : ℕ := (c >>> 11) &&& 0x1F

/-- Six-bit green channel of an RGB565 color (`(c >> 5) & 0x3F`, field
`A1`). -/
def chanA1 (c : ℕ) : ℕ := (c >>> 5) &&& 0x3F

/-- Five-bit blue channel of an RGB565 color (`c & 0x1F`, field `A2`). -/
def chanA2 (c : ℕ) : ℕ := c &&& 0x1F

/-- Absolute difference of two channel values (`np.abs` of the int16
subtraction; channel values are at most 63 so no overflow occurs). -/
def chanDist (a b : ℕ) : ℕ := if a ≤ b then b - a else a - b

/-- Three-channel absolute-difference distance between two RGB565 colors,
as summed in the `distances` matrix of `_colpic_encode`. -/
def colorDist (c k : ℕ) : ℕ :=
  chanDist (chanA0 c) (chanA0 k) + chanDist (chanA1 c) (chanA1 k) +
    chanDist (chanA2 c) (chanA2 k)

/-- Distinct colors of the image paired with their pixel counts, modelling
`np.unique(pixels, return_counts=True)`. The enumeration order differs
from numpy's ascending order, which is irrelevant: the palette is re-sorted
by count below, and numpy's `argsort` tie-breaking is itself unspecified
(unstable quicksort). -/
def paletteCounts (pixels : List ℕ) : List (ℕ × ℕ) :=
  pixels.dedup.map (fun c => (c, pixels.count c))

/-- Insertion step of sorting palette entries by descending count. -/
def insertDesc (a : ℕ × ℕ) : List (ℕ × ℕ) → List (ℕ × ℕ)
  | [] => [a]
  | b :: bs => if b.2 ≤ a.2 then a :: b :: bs else b :: insertDesc a bs

/-- Palette entries sorted by descending count, modelling
`palette[np.argsort(palette.qty)[::-1]]`. Any descending order is a
faithful model since numpy's default sort is unstable. -/
def sortByQtyDesc (l : List (ℕ × ℕ)) : List (ℕ × ℕ) := l.foldr insertDesc []

/-- The sorted palette of an image. -/
def sortedPalette (pixels : List ℕ) : List (ℕ × ℕ) :=
  sortByQtyDesc (paletteCounts pixels)

/-- Effective palette capacity: `colorsmax = min(colorsmax, 1024)` in
`_colpic_encode`. -/
def keepCount (colorsmax : ℕ) : ℕ := min colorsmax 1024

/-- Kept palette entries (`keep = palette[:colorsmax]`). -/
def keepPalette (colorsmax : ℕ) (pixels : List ℕ) : List (ℕ × ℕ) :=
  (sortedPalette pixels).take (keepCount colorsmax)

/-- Discarded palette entries (`discard = palette[colorsmax:]`). -/
def discardPalette (colorsmax : ℕ) (pixels : List ℕ) : List (ℕ × ℕ) :=
  (sortedPalette pixels).drop (keepCount colorsmax)

/-- First minimizer of `f` over a head element and a tail list, modelling
`np.argmin` along a row of the distance matrix (which returns the first
index attaining the minimum). -/
def argminFirst (f : α → ℕ) : α → List α → α
  | x, [] => x
  | x, y :: ys => argminFirst f (if f y < f x then y else x) ys

/-- Kept color nearest to a discarded color under the three-channel
absolute-difference metric (`keep.colo16[nearest_indices]`). -/
def nearestKeptColor (keep : List (ℕ × ℕ)) (c : ℕ) : ℕ :=
  match keep with
  | [] => c
  | k :: ks => (argminFirst (fun e => colorDist c e.1) k ks).1

/-- Pixel remapping lookup (`remap_lut`): discarded colors map to their
nearest kept color, all other values map to themselves
(`remap_lut = np.arange(65536)` overwritten at the discarded colors). -/
def remapColor (colorsmax : ℕ) (pixels : List ℕ) (c : ℕ) : ℕ :=
  if c ∈ (discardPalette colorsmax pixels).map Prod.fst then
    nearestKeptColor (keepPalette colorsmax pixels) c
  else c

/-- Palette-reduction step of `_colpic_encode` (src/src/lib_col_pic.py,
the `if len(palette) > colorsmax` block): when the distinct-color count
exceeds the capacity, the emitted palette is the kept slice and every
pixel is remapped through the lookup table; otherwise palette and pixels
are unchanged. Returns the palette and the pixel array used for the
subsequent RLE encoding. -/
def colpicReduce (colorsmax : ℕ) (pixels : List ℕ) : List (ℕ × ℕ) × List ℕ :=
  if (sortedPalette pixels).length > keepCount colorsmax then
    (keepPalette colorsmax pixels, pixels.map (remapColor colorsmax pixels))
  else (sortedPalette pixels, pixels)

/-- Descending-count order used for the palette. -/
def qtyGE (a b : ℕ × ℕ) : Prop := b.2 ≤ a.2

/-- Membership through `insertDesc`. -/
theorem mem_insertDesc (a x : ℕ × ℕ) : ∀ l : List (ℕ × ℕ),
    x ∈ insertDesc a l ↔ x = a ∨ x ∈ l
  | [] => by simp [insertDesc]
  | b :: bs => by
    rw [insertDesc]
    split
    · simp [or_comm, or_assoc, or_left_comm]
    · simp only [List.mem_cons, mem_insertDesc a x bs]
      tauto

/-- Inserting into a descending-sorted list keeps it sorted. -/
theorem sorted_insertDesc (a : ℕ × ℕ) : ∀ l : List (ℕ × ℕ),
    List.Sorted qtyGE l → List.Sorted qtyGE (insertDesc a l)
  | [], _ => by simp [insertDesc]
  | b :: bs, h => by
    rw [insertDesc]
    rw [List.sorted_cons] at h
    split
    · rename_i hba
      rw [List.sorted_cons]
      refine ⟨?_, List.sorted_cons.mpr h⟩
      intro x hx
      rcases List.mem_cons.mp hx with hx | hx
      · rw [hx]; exact hba
      · exact le_trans (h.1 x hx) hba
    · rename_i hba
      rw [List.sorted_cons]
      refine ⟨?_, sorted_insertDesc a bs h.2⟩
      intro x hx
      rcases (mem_insertDesc a x bs).mp hx with hx | hx
      · rw [hx]
        unfold qtyGE
        omega
      · exact h.1 x hx

/-- The palette sort produces a descending-count-sorted list. -/
theorem sorted_sortByQtyDesc (l : List (ℕ × ℕ)) :
    List.Sorted qtyGE (sortByQtyDesc l) := by
  induction l with
  | nil => simp [sortByQtyDesc]
  | cons a as ih => exact sorted_insertDesc a (sortByQtyDesc as) ih

/-- The first minimizer belongs to the searched list. -/
theorem argminFirst_mem (f : α → ℕ) : ∀ (ys : List α) (x : α),
    argminFirst f x ys ∈ x :: ys
  | [], x => by simp [argminFirst]
  | y :: ys, x => by
    rw [argminFirst]
    have h := argminFirst_mem f ys (if f y < f x then y else x)
    rcases List.mem_cons.mp h with h | h
    · rw [h]
      split <;> simp
    · simp [h]

/-- The first minimizer attains the minimum value over the searched list. -/
theorem argminFirst_le (f : α → ℕ) : ∀ (ys : List α) (x : α),
    ∀ z ∈ x :: ys, f (argminFirst f x ys) ≤ f z
  | [], x => by simp [argminFirst]
  | y :: ys, x => by
    intro z hz
    rw [argminFirst]
    have hx' : f (if f y < f x then y else x) ≤ f x := by
      split <;> omega
    have hy' : f (if f y < f x then y else x) ≤ f y := by
      split <;> omega
    have ih := argminFirst_le f ys (if f y < f x then y else x)
    have hhead := ih _ (List.mem_cons_self _ _)
    rcases List.mem_cons.mp hz with hz | hz
    · rw [hz]; exact le_trans hhead hx'
    · rcases List.mem_cons.mp hz with hz | hz
      · rw [hz]; exact le_trans hhead hy'
      · exact ih z (List.mem_cons_of_mem _ hz)

end ColPic

/-- C9: in the palette-reduction step of `_colpic_encode`, whenever the
image has more distinct RGB565 colors than the capacity `min(colorsmax,
1024)` (1024 in the call from `parse_thumbnail`), the emitted palette is
exactly the capacity-many entries of highest frequency — its length equals
the capacity, which never exceeds 1024, and every kept entry's count is at
least every discarded entry's count — and every pixel whose color was
discarded is remapped to a kept color minimizing the three-channel
absolute-difference distance to it. -/
theorem c9_palette_reduction (colorsmax : ℕ) (pixels : List ℕ)
    (hpos : 0 < colorsmax)
    (hover : ColPic.keepCount colorsmax < (ColPic.sortedPalette pixels).length) :
    (ColPic.colpicReduce colorsmax pixels).1 = ColPic.keepPalette colorsmax pixels ∧
    (ColPic.keepPalette colorsmax pixels).length = ColPic.keepCount colorsmax ∧
    ColPic.keepCount colorsmax ≤ 1024 ∧
    (∀ k ∈ ColPic.keepPalette colorsmax pixels,
      ∀ d ∈ ColPic.discardPalette colorsmax pixels, d.2 ≤ k.2) ∧
    (∀ c ∈ pixels,
      c ∈ (ColPic.discardPalette colorsmax pixels).map Prod.fst →
      (ColPic.remapColor colorsmax pixels c ∈
          (ColPic.keepPalette colorsmax pixels).map Prod.fst ∧
        ∀ k ∈ (ColPic.keepPalette colorsmax pixels).map Prod.fst,
          ColPic.colorDist c (ColPic.remapColor colorsmax pixels c) ≤
            ColPic.colorDist c k)) ∧
    (ColPic.colpicReduce colorsmax pixels).2 =
      pixels.map (ColPic.remapColor colorsmax pixels) := by
  have hred : ColPic.colpicReduce colorsmax pixels =
      (ColPic.keepPalette colorsmax pixels,
       pixels.map (ColPic.remapColor colorsmax pixels)) := by
    unfold ColPic.colpicReduce
    rw [if_pos hover]
  have hsorted : List.Sorted ColPic.qtyGE (ColPic.sortedPalette pixels) :=
    ColPic.sorted_sortByQtyDesc _
  have hdom : ∀ k ∈ ColPic.keepPalette colorsmax pixels,
      ∀ d ∈ ColPic.discardPalette colorsmax pixels, d.2 ≤ k.2 := by
    intro k hk d hd
    have hsplit := List.take_append_drop (ColPic.keepCount colorsmax)
      (ColPic.sortedPalette pixels)
    rw [← hsplit] at hsorted
    have := (List.pairwise_append.mp hsorted).2.2 k hk d hd
    exact this
  have hlen : (ColPic.keepPalette colorsmax pixels).length =
      ColPic.keepCount colorsmax := by
    unfold ColPic.keepPalette
    rw [List.length_take]
    exact Nat.min_eq_left (Nat.le_of_lt hover)
  have hc : 0 < ColPic.keepCount colorsmax := by
    unfold ColPic.keepCount
    omega
  have hkeepne : ColPic.keepPalette colorsmax pixels ≠ [] := by
    intro hcontra
    rw [hcontra] at hlen
    simp at hlen
    omega
  refine ⟨by rw [hred], hlen, Nat.min_le_right colorsmax 1024, hdom, ?_,
    by rw [hred]⟩
  intro c _ hcd
  obtain ⟨k0, ks, hkp⟩ := List.exists_cons_of_ne_nil hkeepne
  unfold ColPic.remapColor
  rw [if_pos hcd, hkp]
  have hnear : ColPic.nearestKeptColor (k0 :: ks) c =
      (ColPic.argminFirst (fun e => ColPic.colorDist c e.1) k0 ks).1 := rfl
  rw [hnear]
  constructor
  · exact List.mem_map_of_mem Prod.fst (ColPic.argminFirst_mem _ ks k0)
  · intro kc hkc
    rcases List.mem_map.mp hkc with ⟨ke, hke, hkeq⟩
    rw [← hkeq]
    have happ := ColPic.argminFirst_le (fun e => ColPic.colorDist c e.1) ks k0 ke hke
    exact happ

/-- C9 witness: the theorem applied with capacity 2 to a four-pixel image
holding three distinct colors; color 3 is discarded and remapped to the
kept color 2, its nearest neighbor. -/
theorem c9_palette_reduction_witness :
    (ColPic.colpicReduce 2 [1, 1, 2, 3]).1 = ColPic.keepPalette 2 [1, 1, 2, 3] ∧
    (ColPic.keepPalette 2 [1, 1, 2, 3]).length = ColPic.keepCount 2 ∧
    ColPic.keepCount 2 ≤ 1024 ∧
    (∀ k ∈ ColPic.keepPalette 2 [1, 1, 2, 3],
      ∀ d ∈ ColPic.discardPalette 2 [1, 1, 2, 3], d.2 ≤ k.2) ∧
    (∀ c ∈ [1, 1, 2, 3],
      c ∈ (ColPic.discardPalette 2 [1, 1, 2, 3]).map Prod.fst →
      (ColPic.remapColor 2 [1, 1, 2, 3] c ∈
          (ColPic.keepPalette 2 [1, 1, 2, 3]).map Prod.fst ∧
        ∀ k ∈ (ColPic.keepPalette 2 [1, 1, 2, 3]).map Prod.fst,
          ColPic.colorDist c (ColPic.remapColor 2 [1, 1, 2, 3] c) ≤
            ColPic.colorDist c k)) ∧
    (ColPic.colpicReduce 2 [1, 1, 2, 3]).2 =
      [1, 1, 2, 3].map (ColPic.remapColor 2 [1, 1, 2, 3]) :=
  c9_palette_reduction 2 [1, 1, 2, 3] (by decide) (by decide)




